import Mathlib

/-
Verification of the conda package-conversion engine
(`conda_build/main_convert.py`).

The embedding below translates `execute` (lines 114-191 of
`main_convert.py`) into Lean.  The inspection and rewriting helpers it
calls (`has_cext`, `has_nonpy_entry_points`, `get_pure_py_file_map`,
`tar_update`) live in `conda_build/convert.py`, which is not part of the
visible sources; their verdicts are carried as fields of `Archive`, and
the path translation and archive rewriting are modelled from the spec
(sections 4.2-4.4), as marked on each definition.

Paths are modelled as already absolute and normalised, so
`abspath(expanduser(p))` is the identity and `os.path.split` is the
`dir`/`base` decomposition carried by `SrcPath`.
-/

set_option autoImplicit false
set_option maxHeartbeats 1000000

namespace CondaConvert

/-- One archive entry: its stored path and its byte content. -/
structure Entry where
  path : String
  content : List Nat
deriving DecidableEq

/-- An input file path, already absolute, decomposed as by `os.path.split`
(line 140): `dir` is the directory part, `base` the basename; the full
path is `dir ++ "/" ++ base`. -/
structure SrcPath where
  dir : String
  base : String
deriving DecidableEq

/-- The full path string of a `SrcPath`. -/
def SrcPath.full (p : SrcPath) : String := p.dir ++ "/" ++ p.base

/-- os.path.join as used at line 191: `join(output_dir, fn)`. -/
def join (d b : String) : String := d ++ "/" ++ b

/-- An opened tar archive as the engine observes it.  `manifest` is the
`platform` field of `info/index.json` (`none` models a missing or
unparsable manifest, line 145); `pyver` is the interpreter version
recorded in the manifest build string (spec 4.3); `has_cext`,
`has_nonpy_unix` and `has_nonpy_win` are the verdicts of `has_cext(t)`,
`has_nonpy_entry_points(t, unix_to_win=True)` and
`has_nonpy_entry_points(t, unix_to_win=False)` from
`conda_build/convert.py` (not in the visible sources); `entries` is the
archive's entry list. -/
structure Archive where
  manifest : Option String
  pyver : String
  has_cext : Bool
  has_nonpy_unix : Bool
  has_nonpy_win : Bool
  entries : List Entry
deriving DecidableEq

/-- The parsed command line (lines 50-104).  Field order follows the
order the parser declares the options. -/
structure Args where
  package_files : List SrcPath
  platforms : List String
  show_imports : Bool
  force : Bool
  output_dir : String
  verbose : Bool
  dry_run : Bool
deriving DecidableEq

/-- Characters before the first dash, as `platform.split('-')[0]`
computes it (line 155). -/
def upToDash : List Char → List Char
  | [] => []
  | c :: cs => if c = '-' then [] else c :: upToDash cs

/-- `platform.split('-')[0]` (line 155). -/
def destPlatOf (platform : String) : String := String.mk (upToDash platform.data)

/-- `'unix' if plat in {'osx', 'linux'} else 'win'` (line 147). -/
def sourceTypeOf (plat : String) : String :=
  if plat = "osx" ∨ plat = "linux" then "unix" else "win"

/-- `'unix' if dest_plat in {'osx', 'linux'} else 'win'` (line 156). -/
def destTypeOf (platform : String) : String :=
  if destPlatOf platform = "osx" ∨ destPlatOf platform = "linux" then "unix" else "win"

/-- Whether the first list is an initial segment of the second. -/
def leadCL : List Char → List Char → Bool
  | [], _ => true
  | _ :: _, [] => false
  | a :: as, b :: bs => if a = b then leadCL as bs else false

/-- `s.endswith(suf)` (line 122): the reversed suffix is an initial
segment of the reversed string. -/
def endsWithStr (s suf : String) : Bool := leadCL suf.data.reverse s.data.reverse

/-- Drops `pre` from the front of `s`, or `none` when `s` does not start
with `pre`. -/
def dropLead : List Char → List Char → Option (List Char)
  | [], s => some s
  | _ :: _, [] => none
  | a :: as, b :: bs => if a = b then dropLead as bs else none

/-- Replaces the leading `pre` of `p` with `repl`, or `none` when `p`
does not start with `pre`. -/
def swapLead (pre repl p : String) : Option String :=
  (dropLead pre.data p.data).map (fun rest => String.mk (repl.data ++ rest))

/-- Modelled from the spec: the Layout Translator rule table of section
4.3 applied to one entry path.  `get_pure_py_file_map` itself is in
`conda_build/convert.py`, which is not among the visible sources.  For a
unix source and win destination, `lib/python<pyver>/` becomes `Lib/` and
`bin/` becomes `Scripts/` (first match wins); for a win source and unix
destination the inverse rules apply; every other entry, and every entry
of a same-family conversion, passes through unchanged. -/
def mapEntryPath (source_type dest_type pyver p : String) : String :=
  if source_type = "unix" ∧ dest_type = "win" then
    match swapLead ("lib/python" ++ pyver ++ "/") "Lib/" p with
    | some q => q
    | none =>
      match swapLead "bin/" "Scripts/" p with
      | some q => q
      | none => p
  else if source_type = "win" ∧ dest_type = "unix" then
    match swapLead "Lib/" ("lib/python" ++ pyver ++ "/") p with
    | some q => q
    | none =>
      match swapLead "Scripts/" "bin/" p with
      | some q => q
      | none => p
  else p

/-- Modelled from the spec: the File Map computed for one (archive,
destination platform) pair (spec 4.3 and data model section 3) — one
pair per entry, source path to destination path; the source family comes
from the archive manifest, the destination family from the platform
token.  The function itself lives in `conda_build/convert.py`, not in
the visible sources. -/
def get_pure_py_file_map (a : Archive) (platform : String) : List (String × String) :=
  a.entries.map fun e =>
    (e.path, mapEntryPath (sourceTypeOf (a.manifest.getD "")) (destTypeOf platform) a.pyver e.path)

/-- First value bound to `p` in the map, or `p` itself when absent. -/
def lookupFM (fm : List (String × String)) (p : String) : String :=
  match fm with
  | [] => p
  | q :: rest => if q.1 = p then q.2 else lookupFM rest p

/-- Modelled from the spec: the entry list of the archive `tar_update`
writes (spec 4.4) — every original entry's content, byte for byte, under
its mapped path.  `tar_update` itself is in `conda_build/convert.py`,
not among the visible sources. -/
def tar_update_entries (a : Archive) (fm : List (String × String)) : List Entry :=
  a.entries.map fun e => ⟨lookupFM fm e.path, e.content⟩

/-- The exceptions `execute` can raise: wrong input suffix (line 122),
output directory equal to an input directory (line 141), missing or
unparsable `info/index.json` (line 145). -/
inductive ConvErr where
  | NotAPackage (file : String)
  | OutputCollision
  | CorruptManifest (file : String)
deriving DecidableEq

/-- The observable actions of one run, in order: the C-extension warning
(line 133), the two entry-point warnings (lines 168 and 174), the
dry-run report carrying the computed file map (lines 182-185), and an
invocation of `tar_update` (line 191). -/
inductive Event where
  | warnCext (file : String)
  | warnNonpyUnix (file srcPlat platform : String)
  | warnNonpyWin (file srcPlat platform : String)
  | wouldConvert (src : SrcPath) (srcPlat destPlat : String) (fm : List (String × String))
  | written (src : SrcPath) (destPath : String) (entries : List Entry)
deriving DecidableEq

/-- Whether an event is an invocation of the archive writer. -/
def Event.isWritten : Event → Bool
  | Event.written _ _ _ => true
  | _ => false

/-- One iteration of the platform loop (lines 152-191).  The state is
the pair `(nonpy_unix, nonpy_win)` carried across iterations; each
iteration ends in exactly one observable: a warning and `continue`, a
dry-run report and `continue`, or a `tar_update` call. -/
def stepPlatform (args : Args) (a : Archive) (f : SrcPath) (srcPlat : String)
    (flags : Bool × Bool) (platform : String) : (Bool × Bool) × Event :=
  let source_type := sourceTypeOf srcPlat
  let dest_plat := destPlatOf platform
  let dest_type := if dest_plat = "osx" ∨ dest_plat = "linux" then "unix" else "win"
  let nonpy_unix :=
    if source_type = "unix" ∧ dest_type = "win" then flags.1 || a.has_nonpy_unix else flags.1
  let nonpy_win :=
    if source_type = "win" ∧ dest_type = "unix" then flags.2 || a.has_nonpy_win else flags.2
  if nonpy_unix = true ∧ args.force = false then
    ((nonpy_unix, nonpy_win), Event.warnNonpyUnix f.full srcPlat platform)
  else if nonpy_win = true ∧ args.force = false then
    ((nonpy_unix, nonpy_win), Event.warnNonpyWin f.full srcPlat platform)
  else if args.dry_run = true then
    ((nonpy_unix, nonpy_win), Event.wouldConvert f srcPlat dest_plat (get_pure_py_file_map a platform))
  else
    ((nonpy_unix, nonpy_win),
      Event.written f (join args.output_dir f.base)
        (tar_update_entries a (get_pure_py_file_map a platform)))

/-- The platform loop (lines 152-191): the events of the successive
iterations, threading the sticky `(nonpy_unix, nonpy_win)` flags. -/
def platEvents (args : Args) (a : Archive) (f : SrcPath) (srcPlat : String) :
    Bool × Bool → List String → List Event
  | _, [] => []
  | flags, pl :: ps =>
    (stepPlatform args a f srcPlat flags pl).2 ::
      platEvents args a f srcPlat (stepPlatform args a f srcPlat flags pl).1 ps

/-- The body of the file loop for one input (lines 117-191): suffix
check (line 122), open, C-extension gate (lines 128-135), collision
check (lines 140-143), manifest parse (line 145), then the platform
loop with both sticky flags starting false (lines 149-150).  `fs` maps
a full path to the archive `tarfile.open` yields for it. -/
def processFile (fs : String → Archive) (args : Args) (f : SrcPath) :
    Except ConvErr (List Event) :=
  if endsWithStr f.full ".tar.bz2" = false then
    Except.error (ConvErr.NotAPackage f.full)
  else if args.force = false ∧
      ((args.show_imports && (fs f.full).has_cext) || (fs f.full).has_cext) = true then
    Except.ok [Event.warnCext f.full]
  else if args.output_dir = f.dir then
    Except.error ConvErr.OutputCollision
  else
    match (fs f.full).manifest with
    | none => Except.error (ConvErr.CorruptManifest f.full)
    | some srcPlat =>
      Except.ok (platEvents args (fs f.full) f srcPlat (false, false) args.platforms)

/-- The file loop (line 117).  A raised exception propagates: it stops
the loop, keeping the events of the files already processed. -/
def runFiles (fs : String → Archive) (args : Args) :
    List SrcPath → List Event × Option ConvErr
  | [] => ([], none)
  | f :: rest =>
    match processFile fs args f with
    | Except.error e => ([], some e)
    | Except.ok evs =>
      (evs ++ (runFiles fs args rest).1, (runFiles fs args rest).2)

/-- `execute(args, parser)` (line 114): the events it prints or
performs, and the exception it ends with, if any. -/
def execute (fs : String → Archive) (args : Args) : List Event × Option ConvErr :=
  runFiles fs args args.package_files

/-- The concatenated events of the files in `l` that process without an
exception. -/
def okEvents (fs : String → Archive) (args : Args) : List SrcPath → List Event
  | [] => []
  | g :: gs =>
    (match processFile fs args g with
     | Except.ok evs => evs
     | Except.error _ => []) ++ okEvents fs args gs

/-- The output directory after one event: a `tar_update` call overwrites
the file at its destination path (spec 4.4, last-write-wins); every
other event leaves the directory unchanged. -/
def applyEvent (st : String → Option (List Entry)) : Event → String → Option (List Entry)
  | Event.written _ dp es => fun q => if q = dp then some es else st q
  | _ => st

/-- The output directory after a whole run's events. -/
def applyEvents (st : String → Option (List Entry)) : List Event → String → Option (List Entry)
  | [] => st
  | e :: evs => applyEvents (applyEvent st e) evs

/-- The write one event performs at path `q`, if any. -/
def writeAt (q : String) : Event → Option (List Entry)
  | Event.written _ dp es => if q = dp then some es else none
  | _ => none

/-- The entry list of the last write to path `q` among the events, if
any. -/
def lastWriteAt (q : String) : List Event → Option (List Entry)
  | [] => none
  | e :: evs =>
    match lastWriteAt q evs with
    | some es => some es
    | none => writeAt q e

deriving instance DecidableEq for Except

/-- A pure-python unix archive that converts cleanly. -/
def archGood : Archive := ⟨some "osx", "3.4", false, false, false, [⟨"bin/x", [0]⟩]⟩

/-- An archive whose compiled-code inspection reports true. -/
def archCext : Archive := ⟨some "osx", "3.4", true, false, false, [⟨"bin/x", [0]⟩]⟩

/-- A unix archive with non-python entry points. -/
def archNonpy : Archive := ⟨some "osx", "3.4", false, true, false, [⟨"bin/x", [0]⟩]⟩

/-- A file system on which every path opens as `archGood`. -/
def fsGood : String → Archive := fun _ => archGood

/-- A file system on which every path opens as `archCext`. -/
def fsCext : String → Archive := fun _ => archCext

/-- A file system on which every path opens as `archNonpy`. -/
def fsNonpy : String → Archive := fun _ => archNonpy

/-- The input path `/in/p.tar.bz2`. -/
def pIn : SrcPath := ⟨"/in", "p.tar.bz2"⟩

/-- The input path `/in/a.tar.bz2`. -/
def pA : SrcPath := ⟨"/in", "a.tar.bz2"⟩

/-- The input path `/in/good.tar.bz2`. -/
def pGood : SrcPath := ⟨"/in", "good.tar.bz2"⟩

/-- An invocation whose first input lacks the archive suffix and whose
second input is convertible. -/
def argsC1 : Args :=
  ⟨[⟨"/in", "bad.txt"⟩, pGood], ["win-64"], false, false, "/out", false, false⟩

/-- An invocation with a single wrong-suffix input. -/
def argsW1 : Args :=
  ⟨[⟨"/in", "bad.txt"⟩], ["win-64"], false, false, "/out", false, false⟩

/-- An invocation whose second input lives in the output directory. -/
def argsC2 : Args :=
  ⟨[pA, ⟨"/out", "b.tar.bz2"⟩], ["win-64"], false, false, "/out", false, false⟩

/-- An invocation with a single input living in the output directory. -/
def argsW2 : Args :=
  ⟨[⟨"/out", "b.tar.bz2"⟩], ["win-64"], false, false, "/out", false, false⟩

/-- An invocation listing a cross-family destination before a
same-family one. -/
def args3 : Args :=
  ⟨[pIn], ["win-64", "osx-64"], false, false, "/out", false, false⟩

/-- The same invocation as `args3` with the destination list reversed. -/
def args3r : Args :=
  ⟨[pIn], ["osx-64", "win-64"], false, false, "/out", false, false⟩

/-- A plain invocation of one input towards `win-64`. -/
def argsW4 : Args :=
  ⟨[pIn], ["win-64"], false, false, "/out", false, false⟩

/-- A dry-run invocation of one input towards `win-64`. -/
def argsW5 : Args :=
  ⟨[pA], ["win-64"], false, false, "/out", false, true⟩

theorem stepPlatform_shape (args : Args) (a : Archive) (f : SrcPath) (srcPlat : String)
    (flags : Bool × Bool) (pl : String) :
    (stepPlatform args a f srcPlat flags pl).2 = Event.warnNonpyUnix f.full srcPlat pl ∨
    (stepPlatform args a f srcPlat flags pl).2 = Event.warnNonpyWin f.full srcPlat pl ∨
    (args.dry_run = true ∧ (stepPlatform args a f srcPlat flags pl).2
      = Event.wouldConvert f srcPlat (destPlatOf pl) (get_pure_py_file_map a pl)) ∨
    (args.dry_run = false ∧ (stepPlatform args a f srcPlat flags pl).2
      = Event.written f (join args.output_dir f.base)
          (tar_update_entries a (get_pure_py_file_map a pl))) := by
  unfold stepPlatform
  dsimp only
  split_ifs <;>
    first
      | exact Or.inl rfl
      | exact Or.inr (Or.inl rfl)
      | exact Or.inr (Or.inr (Or.inl ⟨by assumption, rfl⟩))
      | exact Or.inr (Or.inr (Or.inr ⟨by simp_all, rfl⟩))

theorem platEvents_mem (args : Args) (a : Archive) (f : SrcPath) (srcPlat : String) :
    ∀ (ps : List String) (flags : Bool × Bool) (e : Event),
      e ∈ platEvents args a f srcPlat flags ps →
      ∃ flags2 pl, pl ∈ ps ∧ e = (stepPlatform args a f srcPlat flags2 pl).2 := by
  intro ps
  induction ps with
  | nil => intro flags e h; simp [platEvents] at h
  | cons pl ps ih =>
    intro flags e h
    rw [platEvents] at h
    rcases List.mem_cons.mp h with h | h
    · exact ⟨flags, pl, List.mem_cons_self pl ps, h⟩
    · obtain ⟨fl2, pl2, hm, he⟩ := ih _ e h
      exact ⟨fl2, pl2, List.mem_cons_of_mem _ hm, he⟩

theorem processFile_ok_events (fs : String → Archive) (args : Args) (f : SrcPath)
    (evs : List Event) (h : processFile fs args f = Except.ok evs) :
    evs = [Event.warnCext f.full] ∨
    ∃ srcPlat, (fs f.full).manifest = some srcPlat ∧
      (args.force = false → (fs f.full).has_cext = false) ∧
      evs = platEvents args (fs f.full) f srcPlat (false, false) args.platforms := by
  unfold processFile at h
  by_cases h1 : endsWithStr f.full ".tar.bz2" = false
  · rw [if_pos h1] at h; simp at h
  · rw [if_neg h1] at h
    by_cases h2 : args.force = false ∧
        ((args.show_imports && (fs f.full).has_cext) || (fs f.full).has_cext) = true
    · rw [if_pos h2] at h
      simp only [Except.ok.injEq] at h
      exact Or.inl h.symm
    · rw [if_neg h2] at h
      by_cases h3 : args.output_dir = f.dir
      · rw [if_pos h3] at h; simp at h
      · rw [if_neg h3] at h
        cases hm : (fs f.full).manifest with
        | none => rw [hm] at h; simp at h
        | some sp =>
          rw [hm] at h
          simp only [Except.ok.injEq] at h
          refine Or.inr ⟨sp, rfl, ?_, h.symm⟩
          intro hf
          by_contra hc
          have hx : (fs f.full).has_cext = true := by
            cases hcc : (fs f.full).has_cext
            · exact absurd hcc hc
            · rfl
          exact h2 ⟨hf, by rw [hx]; simp⟩

theorem runFiles_mem (fs : String → Archive) (args : Args) :
    ∀ (l : List SrcPath) (e : Event), e ∈ (runFiles fs args l).1 →
      ∃ f, f ∈ l ∧ ∃ evs, processFile fs args f = Except.ok evs ∧ e ∈ evs := by
  intro l
  induction l with
  | nil => intro e h; simp [runFiles] at h
  | cons f rest ih =>
    intro e h
    rw [runFiles] at h
    cases hp : processFile fs args f with
    | error err => rw [hp] at h; simp at h
    | ok evs =>
      rw [hp] at h
      dsimp only at h
      rcases List.mem_append.mp h with h | h
      · exact ⟨f, List.mem_cons_self _ _, evs, hp, h⟩
      · obtain ⟨g, hg, evs2, hok, he⟩ := ih e h
        exact ⟨g, List.mem_cons_of_mem _ hg, evs2, hok, he⟩

theorem no_cext_skip (args : Args) (a : Archive)
    (h : args.force = true ∨ a.has_cext = false) :
    ¬(args.force = false ∧ ((args.show_imports && a.has_cext) || a.has_cext) = true) := by
  rintro ⟨hf, hb⟩
  rcases h with h | h
  · rw [h] at hf; cases hf
  · rw [h] at hb; simp at hb

theorem processFile_to_loop (fs : String → Archive) (args : Args) (f : SrcPath)
    (srcPlat : String)
    (hsuf : endsWithStr f.full ".tar.bz2" = true)
    (hskip : ¬(args.force = false ∧
      ((args.show_imports && (fs f.full).has_cext) || (fs f.full).has_cext) = true))
    (hcol : args.output_dir ≠ f.dir)
    (hman : (fs f.full).manifest = some srcPlat) :
    processFile fs args f
      = Except.ok (platEvents args (fs f.full) f srcPlat (false, false) args.platforms) := by
  unfold processFile
  rw [if_neg (by rw [hsuf]; simp), if_neg hskip, if_neg hcol, hman]

theorem platEvents_all_would (args : Args) (a : Archive) (f : SrcPath) (srcPlat : String)
    (hdry : args.dry_run = true) (hnu : a.has_nonpy_unix = false)
    (hnw : a.has_nonpy_win = false) :
    ∀ ps : List String, platEvents args a f srcPlat (false, false) ps
      = ps.map (fun pl =>
          Event.wouldConvert f srcPlat (destPlatOf pl) (get_pure_py_file_map a pl)) := by
  have hstep : ∀ pl, stepPlatform args a f srcPlat (false, false) pl
      = ((false, false),
         Event.wouldConvert f srcPlat (destPlatOf pl) (get_pure_py_file_map a pl)) := by
    intro pl
    unfold stepPlatform
    dsimp only
    rw [hnu, hnw]
    simp [hdry]
  intro ps
  induction ps with
  | nil => rfl
  | cons pl ps ih => rw [platEvents, hstep, ih]; rfl

theorem platEvents_all_written (args : Args) (a : Archive) (f : SrcPath) (srcPlat : String)
    (hforce : args.force = true) (hdry : args.dry_run = false) :
    ∀ (ps : List String) (flags : Bool × Bool),
      platEvents args a f srcPlat flags ps
        = ps.map (fun pl => Event.written f (join args.output_dir f.base)
            (tar_update_entries a (get_pure_py_file_map a pl))) := by
  intro ps
  induction ps with
  | nil => intro flags; rfl
  | cons pl ps ih =>
    intro flags
    rw [platEvents]
    have h2 : (stepPlatform args a f srcPlat flags pl).2
        = Event.written f (join args.output_dir f.base)
            (tar_update_entries a (get_pure_py_file_map a pl)) := by
      unfold stepPlatform
      dsimp only
      simp [hforce, hdry]
    rw [h2, ih]
    rfl

theorem runFiles_abort (fs : String → Archive) (args : Args) (f : SrcPath) (err : ConvErr)
    (l2 : List SrcPath) (hf : processFile fs args f = Except.error err) :
    ∀ l1 : List SrcPath, (∀ g ∈ l1, ∃ evs, processFile fs args g = Except.ok evs) →
      runFiles fs args (l1 ++ f :: l2) = (okEvents fs args l1, some err) := by
  intro l1
  induction l1 with
  | nil =>
    intro _
    simp only [List.nil_append]
    rw [runFiles, hf, okEvents]
  | cons g l1 ih =>
    intro h
    obtain ⟨evs, hg⟩ := h g (List.mem_cons_self _ _)
    have ih2 := ih (fun x hx => h x (List.mem_cons_of_mem _ hx))
    simp only [List.cons_append]
    rw [runFiles, hg]
    dsimp only
    rw [ih2, okEvents, hg]

theorem applyEvent_eq (st : String → Option (List Entry)) (e : Event) (q : String) :
    applyEvent st e q
      = match writeAt q e with
        | some es => some es
        | none => st q := by
  cases e with
  | written s dp es =>
    by_cases hq : q = dp
    · subst hq; simp [applyEvent, writeAt]
    · simp [applyEvent, writeAt, hq]
  | warnCext f => rfl
  | warnNonpyUnix a b c => rfl
  | warnNonpyWin a b c => rfl
  | wouldConvert a b c d => rfl

theorem applyEvents_eq (evs : List Event) :
    ∀ (st : String → Option (List Entry)) (q : String),
      applyEvents st evs q
        = match lastWriteAt q evs with
          | some es => some es
          | none => st q := by
  induction evs with
  | nil => intro st q; rfl
  | cons e evs ih =>
    intro st q
    rw [applyEvents, ih, lastWriteAt]
    cases h : lastWriteAt q evs with
    | none => simp only [applyEvent_eq]
    | some es => rfl

theorem mapEntryPath_same (s v p : String) : mapEntryPath s s v p = p := by
  unfold mapEntryPath
  rw [if_neg, if_neg]
  · rintro ⟨h1, h2⟩
    rw [h1] at h2
    exact absurd h2 (by decide)
  · rintro ⟨h1, h2⟩
    rw [h1] at h2
    exact absurd h2 (by decide)

/-- C10: every manifest platform token other than `osx` and `linux`
(`noarch`, the empty token, anything unrecognized) is classified as the
Windows family by line 147, and every destination platform whose prefix
before the first dash is neither `osx` nor `linux` is classified as the
Windows family by lines 155-156. -/
theorem other_tokens_are_win (s p : String)
    (hs1 : s ≠ "osx") (hs2 : s ≠ "linux")
    (hp1 : destPlatOf p ≠ "osx") (hp2 : destPlatOf p ≠ "linux") :
    sourceTypeOf s = "win" ∧ destTypeOf p = "win" := by
  constructor
  · unfold sourceTypeOf
    rw [if_neg]
    rintro (h | h)
    · exact hs1 h
    · exact hs2 h
  · unfold destTypeOf
    rw [if_neg]
    rintro (h | h)
    · exact hp1 h
    · exact hp2 h

theorem other_tokens_witness :
    sourceTypeOf "noarch" = "win" ∧ destTypeOf "noarch-64" = "win" :=
  other_tokens_are_win "noarch" "noarch-64"
    (by decide) (by decide) (by decide) (by decide)

/-- C6: an input path that does not end in `.tar.bz2` makes `processFile`
fail with `NotAPackage` (line 122), whatever archives the file system
holds — the archive is never opened or inspected, since the result does
not depend on `fs` at all. -/
theorem bad_suffix_rejected (args : Args) (f : SrcPath)
    (h : endsWithStr f.full ".tar.bz2" = false) :
    ∀ fs : String → Archive,
      processFile fs args f = Except.error (ConvErr.NotAPackage f.full) := by
  intro fs
  unfold processFile
  rw [if_pos h]

theorem bad_suffix_witness :
    processFile fsGood argsW1 ⟨"/in", "bad.txt"⟩
      = Except.error (ConvErr.NotAPackage "/in/bad.txt") :=
  bad_suffix_rejected argsW1 ⟨"/in", "bad.txt"⟩ (by decide) fsGood

/-- C7: when the source family recorded in the archive manifest equals
the destination platform's family, the computed File Map maps every
entry to its own path. -/
theorem same_family_map_is_identity (a : Archive) (platform : String)
    (h : sourceTypeOf (a.manifest.getD "") = destTypeOf platform) :
    get_pure_py_file_map a platform = a.entries.map (fun e => (e.path, e.path)) := by
  unfold get_pure_py_file_map
  refine List.map_congr_left ?_
  intro e _
  rw [h, mapEntryPath_same]

theorem same_family_witness :
    get_pure_py_file_map archGood "osx-64"
      = archGood.entries.map (fun e => (e.path, e.path)) :=
  same_family_map_is_identity archGood "osx-64" (by decide)

/-- C3: the claim fails on the code.  The archive `archNonpy` (manifest
platform `osx`, non-python entry points present) with destination list
`[win-64, osx-64]` and no force flag: the `win-64` iteration sets the
sticky `nonpy_unix` flag (line 159), and the same-family `osx-64`
iteration is then also skipped with the entry-point warning (line 167),
although `osx` to `osx-64` is a same-family pair.  With the destination
list reversed, the very same pair converts and is written, so the
rejection depends on which destinations appear earlier in the list. -/
theorem sticky_entry_point_flag_bug :
    processFile fsNonpy args3 pIn
      = Except.ok [Event.warnNonpyUnix "/in/p.tar.bz2" "osx" "win-64",
          Event.warnNonpyUnix "/in/p.tar.bz2" "osx" "osx-64"] ∧
    processFile fsNonpy args3r pIn
      = Except.ok [Event.written pIn "/out/p.tar.bz2" [⟨"bin/x", [0]⟩],
          Event.warnNonpyUnix "/in/p.tar.bz2" "osx" "win-64"] := by
  decide

/-- C1, counterexample: the first input lacks the archive suffix, and
the whole invocation stops with `NotAPackage` before producing anything:
no event at all is emitted, although the second input, on its own,
converts and is written.  Processing of the other input archives does
not proceed. -/
theorem malformed_input_counterexample :
    execute fsGood argsC1 = ([], some (ConvErr.NotAPackage "/in/bad.txt")) ∧
    processFile fsGood argsC1 pGood
      = Except.ok [Event.written pGood "/out/good.tar.bz2" [⟨"Scripts/x", [0]⟩]] := by
  decide

/-- C2, counterexample: the second input archive lives in the output
directory.  The first archive is converted and written before the
collision is detected, so the invocation does not fail before any
output file is written. -/
theorem collision_counterexample :
    execute fsGood argsC2
      = ([Event.written pA "/out/a.tar.bz2" [⟨"Scripts/x", [0]⟩]],
         some ConvErr.OutputCollision) := by
  decide

/-- C1 (amended): a malformed input archive (wrong suffix) or a missing
or unparsable manifest raises an error that aborts the entire
invocation: the failing archive produces no output, input archives
later in the list are not processed at all, and only the events of the
archives before the failing one are produced. -/
theorem malformed_input_aborts (fs : String → Archive) (args : Args)
    (l1 l2 : List SrcPath) (f : SrcPath) (err : ConvErr) :
    (endsWithStr f.full ".tar.bz2" = false →
      processFile fs args f = Except.error (ConvErr.NotAPackage f.full)) ∧
    (endsWithStr f.full ".tar.bz2" = true →
      (args.force = true ∨ (fs f.full).has_cext = false) →
      args.output_dir ≠ f.dir →
      (fs f.full).manifest = none →
      processFile fs args f = Except.error (ConvErr.CorruptManifest f.full)) ∧
    ((∀ g ∈ l1, ∃ evs, processFile fs args g = Except.ok evs) →
      processFile fs args f = Except.error err →
      args.package_files = l1 ++ f :: l2 →
      execute fs args = (okEvents fs args l1, some err)) := by
  refine ⟨?_, ?_, ?_⟩
  · intro h
    unfold processFile
    rw [if_pos h]
  · intro hsuf hns hcol hman
    unfold processFile
    rw [if_neg (by rw [hsuf]; simp),
      if_neg (no_cext_skip args (fs f.full) hns), if_neg hcol, hman]
  · intro hok herr hsplit
    unfold execute
    rw [hsplit]
    exact runFiles_abort fs args f err l2 herr l1 hok

theorem malformed_input_aborts_witness :
    execute fsGood argsW1 = ([], some (ConvErr.NotAPackage "/in/bad.txt")) :=
  (malformed_input_aborts fsGood argsW1 [] [] ⟨"/in", "bad.txt"⟩
      (ConvErr.NotAPackage "/in/bad.txt")).2.2
    (fun g hg => absurd hg (List.not_mem_nil g))
    (by decide) rfl

/-- C2 (amended): the output-directory collision is checked per input
archive, inside the file loop, after that archive's native-code gate:
when an archive that is not skipped for native code has its directory
equal to the output directory, the invocation fails with
`OutputCollision` at that archive — later archives are not processed,
but the events of earlier archives (including written outputs) have
already been produced; and an archive skipped for native code bypasses
the collision check entirely. -/
theorem collision_per_archive (fs : String → Archive) (args : Args)
    (l1 l2 : List SrcPath) (f : SrcPath) :
    (endsWithStr f.full ".tar.bz2" = true →
      (args.force = true ∨ (fs f.full).has_cext = false) →
      args.output_dir = f.dir →
      processFile fs args f = Except.error ConvErr.OutputCollision) ∧
    (endsWithStr f.full ".tar.bz2" = true →
      args.force = false → (fs f.full).has_cext = true →
      processFile fs args f = Except.ok [Event.warnCext f.full]) ∧
    ((∀ g ∈ l1, ∃ evs, processFile fs args g = Except.ok evs) →
      processFile fs args f = Except.error ConvErr.OutputCollision →
      args.package_files = l1 ++ f :: l2 →
      execute fs args = (okEvents fs args l1, some ConvErr.OutputCollision)) := by
  refine ⟨?_, ?_, ?_⟩
  · intro hsuf hns hcol
    unfold processFile
    rw [if_neg (by rw [hsuf]; simp),
      if_neg (no_cext_skip args (fs f.full) hns), if_pos hcol]
  · intro hsuf hf hcx
    unfold processFile
    rw [if_neg (by rw [hsuf]; simp), if_pos ⟨hf, by rw [hcx]; simp⟩]
  · intro hok herr hsplit
    unfold execute
    rw [hsplit]
    exact runFiles_abort fs args f ConvErr.OutputCollision l2 herr l1 hok

theorem collision_per_archive_witness :
    processFile fsGood argsW2 ⟨"/out", "b.tar.bz2"⟩
      = Except.error ConvErr.OutputCollision :=
  (collision_per_archive fsGood argsW2 [] [] ⟨"/out", "b.tar.bz2"⟩).1
    (by decide) (Or.inr rfl) rfl

/-- C4: when the compiled-code inspection reports true and the force
flag is not set, the file loop prints the C-extension warning and moves
to the next file — no destination of that archive is converted, and in
the whole invocation the writer is never invoked on an archive whose
inspection reports true; when the force flag is set the gate is
bypassed and (with dry-run off, no collision and a readable manifest)
every destination is converted and written. -/
theorem cext_gate (fs : String → Archive) (args : Args) (f : SrcPath) (srcPlat : String)
    (hsuf : endsWithStr f.full ".tar.bz2" = true) :
    (args.force = false → (fs f.full).has_cext = true →
      processFile fs args f = Except.ok [Event.warnCext f.full]) ∧
    (args.force = true → args.dry_run = false → args.output_dir ≠ f.dir →
      (fs f.full).manifest = some srcPlat →
      processFile fs args f = Except.ok (args.platforms.map (fun pl =>
        Event.written f (join args.output_dir f.base)
          (tar_update_entries (fs f.full) (get_pure_py_file_map (fs f.full) pl))))) ∧
    (args.force = false → ∀ e ∈ (execute fs args).1, ∀ src dp es,
      e = Event.written src dp es → (fs src.full).has_cext = false) := by
  refine ⟨?_, ?_, ?_⟩
  · intro hf hcx
    unfold processFile
    rw [if_neg (by rw [hsuf]; simp), if_pos ⟨hf, by rw [hcx]; simp⟩]
  · intro hf hdry hcol hman
    rw [processFile_to_loop fs args f srcPlat hsuf
      (no_cext_skip args (fs f.full) (Or.inl hf)) hcol hman]
    rw [platEvents_all_written args (fs f.full) f srcPlat hf hdry args.platforms (false, false)]
  · intro hforce e he src dp es heq
    obtain ⟨g, _, evs, hok, hev⟩ := runFiles_mem fs args args.package_files e he
    rcases processFile_ok_events fs args g evs hok with h1 | ⟨sp, _, hcx, h2⟩
    · rw [h1] at hev
      simp only [List.mem_singleton] at hev
      rw [hev] at heq
      exact Event.noConfusion heq
    · rw [h2] at hev
      obtain ⟨fl2, pl, _, he2⟩ :=
        platEvents_mem args (fs g.full) g sp args.platforms (false, false) e hev
      rcases stepPlatform_shape args (fs g.full) g sp fl2 pl with h | h | ⟨_, h⟩ | ⟨_, h⟩ <;>
        rw [he2, h] at heq
      · exact Event.noConfusion heq
      · exact Event.noConfusion heq
      · exact Event.noConfusion heq
      · injection heq with hsrc _ _
        rw [← hsrc]
        exact hcx hforce

theorem cext_gate_witness :
    processFile fsCext argsW4 pIn = Except.ok [Event.warnCext "/in/p.tar.bz2"] :=
  (cext_gate fsCext argsW4 pIn "osx" (by decide)).1 rfl rfl

/-- C5: in dry-run mode the archive writer is never invoked — no event
of the whole invocation is a write — and a fully compatible archive
(no native code or force set, no entry-point incompatibilities,
readable manifest, no collision) gets, for every destination platform
of the invocation, a dry-run report carrying the computed File Map. -/
theorem dry_run_reports_without_writing (fs : String → Archive) (args : Args)
    (f : SrcPath) (srcPlat : String) (hdry : args.dry_run = true) :
    (∀ e ∈ (execute fs args).1, e.isWritten = false) ∧
    (endsWithStr f.full ".tar.bz2" = true →
      (args.force = true ∨ (fs f.full).has_cext = false) →
      args.output_dir ≠ f.dir →
      (fs f.full).manifest = some srcPlat →
      (fs f.full).has_nonpy_unix = false →
      (fs f.full).has_nonpy_win = false →
      processFile fs args f = Except.ok (args.platforms.map (fun pl =>
        Event.wouldConvert f srcPlat (destPlatOf pl)
          (get_pure_py_file_map (fs f.full) pl)))) := by
  constructor
  · intro e he
    obtain ⟨g, _, evs, hok, hev⟩ := runFiles_mem fs args args.package_files e he
    rcases processFile_ok_events fs args g evs hok with h1 | ⟨sp, _, _, h2⟩
    · rw [h1] at hev
      simp only [List.mem_singleton] at hev
      rw [hev]
      rfl
    · rw [h2] at hev
      obtain ⟨fl2, pl, _, he2⟩ :=
        platEvents_mem args (fs g.full) g sp args.platforms (false, false) e hev
      rcases stepPlatform_shape args (fs g.full) g sp fl2 pl with h | h | ⟨_, h⟩ | ⟨hd, h⟩
      · rw [he2, h]; rfl
      · rw [he2, h]; rfl
      · rw [he2, h]; rfl
      · rw [hdry] at hd
        exact Bool.noConfusion hd
  · intro hsuf hns hcol hman hnu hnw
    rw [processFile_to_loop fs args f srcPlat hsuf
      (no_cext_skip args (fs f.full) hns) hcol hman]
    rw [platEvents_all_would args (fs f.full) f srcPlat hdry hnu hnw args.platforms]

theorem dry_run_witness :
    processFile fsGood argsW5 pA
      = Except.ok [Event.wouldConvert pA "osx" "win" [("bin/x", "Scripts/x")]] := by
  have h := (dry_run_reports_without_writing fsGood argsW5 pA "osx" rfl).2
    (by decide) (Or.inr rfl) (by decide) rfl rfl rfl
  rw [h]
  decide

/-- C8: a run is a pure function of the opened archives and the parsed
arguments — the same inputs give the same events, hence the same
destination paths, mapped entry paths and contents — and replaying the
same run's writes over its own output directory changes nothing, since
the writer overwrites its destination path (last write wins, spec 4.4).
Byte-identical outputs for a repeated identical invocation follow. -/
theorem conversion_idempotent (fs : String → Archive) (args : Args)
    (st : String → Option (List Entry)) :
    applyEvents (applyEvents st (execute fs args).1) (execute fs args).1
      = applyEvents st (execute fs args).1 := by
  funext q
  rw [applyEvents_eq]
  cases h : lastWriteAt q (execute fs args).1 with
  | none => rfl
  | some es => rw [applyEvents_eq, h]

/-- C9: every invocation of the archive writer in a run writes to the
output directory joined with the basename of its source archive
(lines 140 and 191). -/
theorem written_path_is_outdir_basename (fs : String → Archive) (args : Args) :
    ∀ e ∈ (execute fs args).1, ∀ (src : SrcPath) (dp : String) (es : List Entry),
      e = Event.written src dp es → dp = join args.output_dir src.base := by
  intro e he src dp es heq
  obtain ⟨g, _, evs, hok, hev⟩ := runFiles_mem fs args args.package_files e he
  rcases processFile_ok_events fs args g evs hok with h1 | ⟨sp, _, _, h2⟩
  · rw [h1] at hev
    simp only [List.mem_singleton] at hev
    rw [hev] at heq
    exact Event.noConfusion heq
  · rw [h2] at hev
    obtain ⟨fl2, pl, _, he2⟩ :=
      platEvents_mem args (fs g.full) g sp args.platforms (false, false) e hev
    rcases stepPlatform_shape args (fs g.full) g sp fl2 pl with h | h | ⟨_, h⟩ | ⟨_, h⟩ <;>
      rw [he2, h] at heq
    · exact Event.noConfusion heq
    · exact Event.noConfusion heq
    · exact Event.noConfusion heq
    · injection heq with hsrc hdp _
      rw [← hdp, ← hsrc]

theorem written_path_witness :
    Event.written pIn "/out/p.tar.bz2" [⟨"Scripts/x", [0]⟩] ∈ (execute fsGood argsW4).1 ∧
    "/out/p.tar.bz2" = join argsW4.output_dir pIn.base :=
  ⟨by decide,
   written_path_is_outdir_basename fsGood argsW4
     (Event.written pIn "/out/p.tar.bz2" [⟨"Scripts/x", [0]⟩]) (by decide)
     pIn "/out/p.tar.bz2" [⟨"Scripts/x", [0]⟩] rfl⟩

end CondaConvert
